import Mathlib

/-!
Verification of the `stringswitch` builder library
(`src/include/stringswitch/stringswitch_impl.h`).

The library is a typestate builder: `StringSwitchImpl<Result>` (entry point)
creates an intermediate state `StringSwitchImpl<Result, ParamBoundTag<p>>`,
which transitions into the accumulator
`StringSwitchImpl<Result, ParamBoundTag<p>, DefaultBoundTag<d>>` on the first
`when` or `on_default` call.  The two `bool` template parameters become `Bool`
indices here; the `std::conditional_t` storage types become `cond`-computed
field types.  The `std::unordered_map<std::string, Result>` is modelled as an
association list with unique keys: `emplace` inserts a pair only when the key
is absent (first registration wins, exactly as `unordered_map::emplace`), and
`find` returns the unique (first) entry for a key.  `requires` clauses on the
C++ members become type-level restrictions on the `Bool` indices of the Lean
functions, so a member that is statically unavailable in C++ simply does not
exist at the corresponding index here.
-/

/-- `std::conditional_t<b, α, Empty>`: field storage that exists only when the
corresponding type tag is `true` (the C++ `Empty` class becomes `Unit`). -/
@[reducible] def Storage (α : Type) : Bool → Type
  | true => α
  | false => Unit

/-- `EffectiveResultType`: `Result` when a default is bound, otherwise
`std::optional<Result>`. -/
@[reducible] def EffectiveResultType (Result : Type) : Bool → Type
  | true => Result
  | false => Option Result

/-- `d_mapping.find(param)`: the lookup of `std::unordered_map`, modelled on an
association list as the first (unique, by `emplace`) entry with the given
key. -/
def mapFind {Result : Type} : List (String × Result) → String → Option Result
  | [], _ => none
  | (k, v) :: rest, param => if k = param then some v else mapFind rest param

/-- `d_mapping.emplace(std::make_pair(label, result))`: insert only when the
key is not yet present; an existing entry for `label` is retained
unchanged. -/
def emplace {Result : Type} (m : List (String × Result)) (label : String)
    (result : Result) : List (String × Result) :=
  match mapFind m label with
  | some _ => m
  | none => m ++ [(label, result)]

/-- The accumulator state
`StringSwitchImpl<Result, ParamBoundTag<param_given>, DefaultBoundTag<default_given>>`:
holds the case mapping, the creation-bound parameter (when `param_given`), and
the default outcome (when `default_given`). -/
structure StringSwitchImpl (Result : Type) (param_given default_given : Bool) where
  d_mapping : List (String × Result)
  d_param : Storage String param_given
  d_default_outcome : Storage Result default_given

/-- The body of `evaluate_impl`, with the `if constexpr (default_given)`
branch made explicit by matching on the `default_given` index: on a hit the
mapped value is returned, on a miss the default (if bound) or `std::nullopt`. -/
def evalImplCore {Result : Type} :
    (d : Bool) → List (String × Result) → Storage Result d → String →
      EffectiveResultType Result d
  | false, m, _, param => mapFind m param
  | true, m, dflt, param =>
    match mapFind m param with
    | some r => r
    | none => dflt

/-- `StringSwitchImpl::evaluate_impl(param)`. -/
def StringSwitchImpl.evaluate_impl {Result : Type} {p d : Bool}
    (s : StringSwitchImpl Result p d) (param : String) :
    EffectiveResultType Result d :=
  evalImplCore d s.d_mapping s.d_default_outcome param

/-- Accumulator `when(label, result)`: `emplace` into the mapping and return
`*this` (the same state with the updated mapping; parameter and default are
untouched). -/
def StringSwitchImpl.when {Result : Type} {p d : Bool}
    (s : StringSwitchImpl Result p d) (label : String) (result : Result) :
    StringSwitchImpl Result p d :=
  { s with d_mapping := emplace s.d_mapping label result }

/-- Accumulator `on_default(default_result)`, `requires(!default_given)`:
builds `SelfWithDefault<true>{d_mapping, d_param, default_result}`. -/
def StringSwitchImpl.on_default {Result : Type} {p : Bool}
    (s : StringSwitchImpl Result p false) (default_result : Result) :
    StringSwitchImpl Result p true :=
  ⟨s.d_mapping, s.d_param, default_result⟩

/-- `evaluate(param)`, `requires(!param_given)`: evaluation-time parameter
binding. -/
def StringSwitchImpl.evaluate {Result : Type} {d : Bool}
    (s : StringSwitchImpl Result false d) (param : String) :
    EffectiveResultType Result d :=
  s.evaluate_impl param

/-- `evaluate()`, `requires(param_given)`: uses the parameter captured at
creation. -/
def StringSwitchImpl.evaluateBound {Result : Type} {d : Bool}
    (s : StringSwitchImpl Result true d) : EffectiveResultType Result d :=
  s.evaluate_impl s.d_param

/-- The intermediate state `StringSwitchImpl<Result, ParamBoundTag<param_given>>`:
holds only the (possibly absent) creation-bound parameter. -/
structure StringSwitchMid (Result : Type) (param_given : Bool) where
  d_param : Storage String param_given

/-- Intermediate `when(label, result)`: seeds the accumulator with the
one-entry mapping `{{label, result}}`, carrying `d_param` forward, no
default. -/
def StringSwitchMid.when {Result : Type} {p : Bool}
    (m : StringSwitchMid Result p) (label : String) (result : Result) :
    StringSwitchImpl Result p false :=
  ⟨[(label, result)], m.d_param, ()⟩

/-- Value-initialization `{}` of the parameter storage
(`std::conditional_t<param_given, std::string, Empty>{}`): the empty string
when a parameter slot exists, `Empty{}` otherwise. -/
def valueInit : (p : Bool) → Storage String p
  | true => ""
  | false => ()

/-- Intermediate `on_default(result)`: the source builds
`{{}, {}, result}` — an empty mapping, a VALUE-INITIALIZED parameter slot
(`{}`, i.e. the empty string when `param_given`), and the default.  Note that
`d_param` is NOT passed along, unlike in `StringSwitchMid.when`. -/
def StringSwitchMid.on_default {Result : Type} {p : Bool}
    (_m : StringSwitchMid Result p) (result : Result) :
    StringSwitchImpl Result p true :=
  ⟨[], valueInit p, result⟩

/-- `StringSwitchImpl<Result>::create(param)`: the entry point with a
creation-bound parameter. -/
def StringSwitch.create (Result : Type) (param : String) :
    StringSwitchMid Result true :=
  ⟨param⟩

/-- `StringSwitchImpl<Result>::create()`: the entry point with no parameter. -/
def StringSwitch.createUnbound (Result : Type) : StringSwitchMid Result false :=
  ⟨()⟩

/-- The implicit conversion of a `Result` into the effective result type:
`r` itself when a default is bound, `std::optional` engaged with `r`
(a "present" value) otherwise. -/
def wrapResult {Result : Type} : (d : Bool) → Result → EffectiveResultType Result d
  | false, r => some r
  | true, r => r

/-- The keys of an association list are pairwise distinct (the
`unordered_map` representation invariant). -/
abbrev NodupKeys {Result : Type} (m : List (String × Result)) : Prop :=
  (m.map Prod.fst).Nodup

/-! ## Lookup lemmas shared by the claim theorems -/

theorem mapFind_eq_none_of_forall {Result : Type} {m : List (String × Result)}
    {x : String} (h : ∀ lr ∈ m, lr.1 ≠ x) : mapFind m x = none := by
  induction m with
  | nil => rfl
  | cons hd tl ih =>
    obtain ⟨k, v⟩ := hd
    have hk : k ≠ x := h (k, v) (List.mem_cons_self _ _)
    simp only [mapFind, if_neg hk]
    exact ih fun lr hlr => h lr (List.mem_cons_of_mem _ hlr)

theorem mapFind_append_of_none {Result : Type} {m : List (String × Result)}
    {x : String} (m' : List (String × Result)) (h : mapFind m x = none) :
    mapFind (m ++ m') x = mapFind m' x := by
  induction m with
  | nil => rfl
  | cons hd tl ih =>
    obtain ⟨k, v⟩ := hd
    by_cases hk : k = x
    · simp [mapFind, hk] at h
    · simp only [mapFind, if_neg hk] at h ⊢
      exact ih h

theorem mapFind_append_of_some {Result : Type} {m : List (String × Result)}
    {x : String} {v : Result} (m' : List (String × Result))
    (h : mapFind m x = some v) : mapFind (m ++ m') x = some v := by
  induction m with
  | nil => simp [mapFind] at h
  | cons hd tl ih =>
    obtain ⟨k, w⟩ := hd
    by_cases hk : k = x
    · simp only [mapFind, if_pos hk] at h ⊢
      exact h
    · simp only [mapFind, if_neg hk] at h ⊢
      exact ih h

theorem emplace_of_find_some {Result : Type} {m : List (String × Result)}
    {l : String} {v : Result} (r : Result) (h : mapFind m l = some v) :
    emplace m l r = m := by
  simp [emplace, h]

theorem emplace_of_find_none {Result : Type} {m : List (String × Result)}
    {l : String} (r : Result) (h : mapFind m l = none) :
    emplace m l r = m ++ [(l, r)] := by
  simp [emplace, h]

theorem mapFind_emplace_self {Result : Type} {m : List (String × Result)}
    {l : String} (r : Result) (h : mapFind m l = none) :
    mapFind (emplace m l r) l = some r := by
  rw [emplace_of_find_none r h, mapFind_append_of_none _ h]
  simp [mapFind]

theorem mapFind_emplace_ne {Result : Type} {m : List (String × Result)}
    {l x : String} (r : Result) (hx : x ≠ l) :
    mapFind (emplace m l r) x = mapFind m x := by
  unfold emplace
  cases hfind : mapFind m l with
  | some v => rfl
  | none =>
    cases hfx : mapFind m x with
    | some v => exact mapFind_append_of_some _ hfx
    | none =>
      rw [mapFind_append_of_none _ hfx]
      simp [mapFind, hfx, Ne.symm hx]

theorem mapFind_of_mem_nodup {Result : Type} {m : List (String × Result)}
    {l : String} {r : Result} (hnd : NodupKeys m) (hmem : (l, r) ∈ m) :
    mapFind m l = some r := by
  induction m with
  | nil => simp at hmem
  | cons hd tl ih =>
    obtain ⟨k, v⟩ := hd
    unfold NodupKeys at hnd
    simp only [List.map_cons, List.nodup_cons] at hnd
    rcases List.mem_cons.mp hmem with heq | htl
    · injection heq with h1 h2
      subst h1; subst h2
      simp [mapFind]
    · have hkl : k ≠ l := by
        intro hkl
        exact hnd.1 (hkl ▸ List.mem_map_of_mem Prod.fst htl)
      simp only [mapFind, if_neg hkl]
      exact ih hnd.2 htl

theorem evaluate_impl_of_find_some {Result : Type} {p d : Bool}
    (s : StringSwitchImpl Result p d) {param : String} {r : Result}
    (h : mapFind s.d_mapping param = some r) :
    s.evaluate_impl param = wrapResult d r := by
  cases d with
  | false =>
    simp only [StringSwitchImpl.evaluate_impl, evalImplCore, wrapResult]
    exact h
  | true =>
    simp only [StringSwitchImpl.evaluate_impl, evalImplCore, wrapResult, h]

theorem evaluate_impl_of_find_none_true {Result : Type} {p : Bool}
    (s : StringSwitchImpl Result p true) {param : String}
    (h : mapFind s.d_mapping param = none) :
    s.evaluate_impl param = s.d_default_outcome := by
  simp only [StringSwitchImpl.evaluate_impl, evalImplCore, h]

theorem evaluate_impl_of_find_none_false {Result : Type} {p : Bool}
    (s : StringSwitchImpl Result p false) {param : String}
    (h : mapFind s.d_mapping param = none) :
    s.evaluate_impl param = none := by
  simp only [StringSwitchImpl.evaluate_impl, evalImplCore, h]

example : mapFind [("apple", 0), ("mango", 1)] "mango" = some 1 := by decide
example : (((StringSwitch.createUnbound Nat).when "apple" 0).on_default 7).evaluate "bad" = 7 := by decide
example : (((StringSwitch.create Nat "apple").when "apple" 0).on_default 7).evaluateBound = 0 := by decide
example : ((StringSwitch.create Nat "apple").on_default 7).d_param = "" := by decide

/-! ## Sample builders used by the witnesses -/

/-- A two-case, evaluation-bound, no-default builder. -/
def sampleNoDefault : StringSwitchImpl Nat false false :=
  ((StringSwitch.createUnbound Nat).when "apple" 0).when "mango" 1

/-- The sample builder with the default `7` registered. -/
def sampleWithDefault : StringSwitchImpl Nat false true :=
  sampleNoDefault.on_default 7

/-! ## Claims -/

/-- Claim C1: for every builder (with or without a default, parameter bound at
creation or at evaluation) whose mapping satisfies the unordered-map
key-uniqueness invariant, every registered `(label, result)` pair is returned
by evaluation with a parameter equal to `label`; without a default the result
is wrapped as a present optional value. -/
theorem C1_registered_label_hits {Result : Type} (label : String) (result : Result) :
    (∀ b : StringSwitchImpl Result false false, NodupKeys b.d_mapping →
      (label, result) ∈ b.d_mapping → b.evaluate label = some result)
  ∧ (∀ b : StringSwitchImpl Result false true, NodupKeys b.d_mapping →
      (label, result) ∈ b.d_mapping → b.evaluate label = result)
  ∧ (∀ b : StringSwitchImpl Result true false, NodupKeys b.d_mapping →
      (label, result) ∈ b.d_mapping → b.d_param = label → b.evaluateBound = some result)
  ∧ (∀ b : StringSwitchImpl Result true true, NodupKeys b.d_mapping →
      (label, result) ∈ b.d_mapping → b.d_param = label → b.evaluateBound = result) := by
  refine ⟨fun b hnd hmem => ?_, fun b hnd hmem => ?_,
         fun b hnd hmem hp => ?_, fun b hnd hmem hp => ?_⟩
  · exact evaluate_impl_of_find_some b (mapFind_of_mem_nodup hnd hmem)
  · exact evaluate_impl_of_find_some b (mapFind_of_mem_nodup hnd hmem)
  · show b.evaluate_impl b.d_param = some result
    rw [hp]
    exact evaluate_impl_of_find_some b (mapFind_of_mem_nodup hnd hmem)
  · show b.evaluate_impl b.d_param = result
    rw [hp]
    exact evaluate_impl_of_find_some b (mapFind_of_mem_nodup hnd hmem)

/-- Witness for C1 at a concrete builder. -/
theorem C1_registered_label_hits_witness :
    NodupKeys sampleNoDefault.d_mapping
  ∧ ("mango", 1) ∈ sampleNoDefault.d_mapping
  ∧ sampleNoDefault.evaluate "mango" = some 1 := by
  refine ⟨by decide, by decide, ?_⟩
  exact (C1_registered_label_hits "mango" 1).1 sampleNoDefault (by decide) (by decide)

/-- Claim C2: for every builder and every evaluation parameter equal to no
registered label, evaluation returns the registered default when one was
registered and the absent optional value otherwise; the lookup miss is an
ordinary, total code path (the model functions are total), not an error. -/
theorem C2_miss_falls_back {Result : Type} (param : String) :
    (∀ b : StringSwitchImpl Result false true,
      (∀ lr ∈ b.d_mapping, lr.1 ≠ param) → b.evaluate param = b.d_default_outcome)
  ∧ (∀ b : StringSwitchImpl Result false false,
      (∀ lr ∈ b.d_mapping, lr.1 ≠ param) → b.evaluate param = none)
  ∧ (∀ b : StringSwitchImpl Result true true,
      (∀ lr ∈ b.d_mapping, lr.1 ≠ b.d_param) → b.evaluateBound = b.d_default_outcome)
  ∧ (∀ b : StringSwitchImpl Result true false,
      (∀ lr ∈ b.d_mapping, lr.1 ≠ b.d_param) → b.evaluateBound = none) := by
  refine ⟨fun b h => ?_, fun b h => ?_, fun b h => ?_, fun b h => ?_⟩
  · exact evaluate_impl_of_find_none_true b (mapFind_eq_none_of_forall h)
  · exact evaluate_impl_of_find_none_false b (mapFind_eq_none_of_forall h)
  · exact evaluate_impl_of_find_none_true b (mapFind_eq_none_of_forall h)
  · exact evaluate_impl_of_find_none_false b (mapFind_eq_none_of_forall h)

/-- Witness for C2 at a concrete builder and missing parameter. -/
theorem C2_miss_falls_back_witness :
    (∀ lr ∈ sampleWithDefault.d_mapping, lr.1 ≠ "bad")
  ∧ sampleWithDefault.evaluate "bad" = 7
  ∧ sampleNoDefault.evaluate "bad" = none := by
  refine ⟨by decide, ?_, ?_⟩
  · exact (C2_miss_falls_back "bad").1 sampleWithDefault (by decide)
  · exact (C2_miss_falls_back "bad").2.1 sampleNoDefault (by decide)

/-- Claim C5: registering a label twice keeps the first registration's value:
`emplace` leaves the mapping unchanged on the second `when` for the same
label, and when the label was fresh before the first registration, lookup and
evaluation return the first value. -/
theorem C5_first_registration_wins {Result : Type} {p d : Bool}
    (b : StringSwitchImpl Result p d) (label : String) (r r' : Result) :
    ((b.when label r).when label r').d_mapping = (b.when label r).d_mapping
  ∧ (mapFind b.d_mapping label = none →
      mapFind ((b.when label r).when label r').d_mapping label = some r
      ∧ ((b.when label r).when label r').evaluate_impl label = wrapResult d r) := by
  have hkey : ∃ v, mapFind (b.when label r).d_mapping label = some v := by
    cases hf : mapFind b.d_mapping label with
    | some v =>
      refine ⟨v, ?_⟩
      show mapFind (emplace b.d_mapping label r) label = some v
      rw [emplace_of_find_some r hf]
      exact hf
    | none => exact ⟨r, mapFind_emplace_self r hf⟩
  obtain ⟨v, hv⟩ := hkey
  have hsame : ((b.when label r).when label r').d_mapping = (b.when label r).d_mapping :=
    emplace_of_find_some r' hv
  refine ⟨hsame, fun hf => ?_⟩
  have hfirst : mapFind ((b.when label r).when label r').d_mapping label = some r := by
    rw [hsame]
    exact mapFind_emplace_self r hf
  exact ⟨hfirst, evaluate_impl_of_find_some _ hfirst⟩

/-- Witness for C5 at a concrete builder and duplicate registration. -/
theorem C5_first_registration_wins_witness :
    mapFind ((StringSwitch.createUnbound Nat).when "apple" 0).d_mapping "mango" = none
  ∧ mapFind ((((StringSwitch.createUnbound Nat).when "apple" 0).when "mango" 1).when "mango" 2).d_mapping "mango" = some 1
  ∧ ((((StringSwitch.createUnbound Nat).when "apple" 0).when "mango" 1).when "mango" 2).evaluate_impl "mango" = wrapResult false 1 := by
  refine ⟨by decide, ?_, ?_⟩
  · exact ((C5_first_registration_wins ((StringSwitch.createUnbound Nat).when "apple" 0)
      "mango" 1 2).2 (by decide)).1
  · exact ((C5_first_registration_wins ((StringSwitch.createUnbound Nat).when "apple" 0)
      "mango" 1 2).2 (by decide)).2

/-- Claim C9: the empty string is an ordinary label and an ordinary parameter:
registering it and evaluating with it hits like any other label, and a builder
with no empty-string case follows the normal default/absent fallback when
evaluated with the empty string. -/
theorem C9_empty_string_ordinary {Result : Type} (r : Result) :
    (∀ b : StringSwitchImpl Result false false, mapFind b.d_mapping "" = none →
      (b.when "" r).evaluate "" = some r)
  ∧ (∀ b : StringSwitchImpl Result false true, mapFind b.d_mapping "" = none →
      (b.when "" r).evaluate "" = r)
  ∧ (∀ b : StringSwitchImpl Result false false, mapFind b.d_mapping "" = none →
      b.evaluate "" = none)
  ∧ (∀ b : StringSwitchImpl Result false true, mapFind b.d_mapping "" = none →
      b.evaluate "" = b.d_default_outcome) := by
  refine ⟨fun b h => ?_, fun b h => ?_, fun b h => ?_, fun b h => ?_⟩
  · exact evaluate_impl_of_find_some _ (mapFind_emplace_self r h)
  · exact evaluate_impl_of_find_some _ (mapFind_emplace_self r h)
  · exact evaluate_impl_of_find_none_false b h
  · exact evaluate_impl_of_find_none_true b h

/-- Witness for C9 at a concrete builder. -/
theorem C9_empty_string_ordinary_witness :
    mapFind sampleNoDefault.d_mapping "" = none
  ∧ (sampleNoDefault.when "" 5).evaluate "" = some 5
  ∧ sampleNoDefault.evaluate "" = none := by
  refine ⟨by decide, ?_, ?_⟩
  · exact (C9_empty_string_ordinary 5).1 sampleNoDefault (by decide)
  · exact (C9_empty_string_ordinary 5).2.2.1 sampleNoDefault (by decide)

/-- Claim C10: `when` only touches the case mapping: the stored parameter and
default are unchanged, and evaluation with any parameter other than the
registered label gives the same result before and after the call. -/
theorem C10_when_frame {Result : Type} {p d : Bool}
    (b : StringSwitchImpl Result p d) (label : String) (r : Result) :
    (b.when label r).d_param = b.d_param
  ∧ (b.when label r).d_default_outcome = b.d_default_outcome
  ∧ ∀ q : String, q ≠ label →
      (b.when label r).evaluate_impl q = b.evaluate_impl q := by
  refine ⟨rfl, rfl, fun q hq => ?_⟩
  have hfind : mapFind (b.when label r).d_mapping q = mapFind b.d_mapping q :=
    mapFind_emplace_ne r hq
  cases hbq : mapFind b.d_mapping q with
  | some v =>
    rw [evaluate_impl_of_find_some b hbq,
        evaluate_impl_of_find_some _ (hfind.trans hbq)]
  | none =>
    cases d with
    | false =>
      rw [evaluate_impl_of_find_none_false b hbq,
          evaluate_impl_of_find_none_false _ (hfind.trans hbq)]
    | true =>
      rw [evaluate_impl_of_find_none_true b hbq,
          evaluate_impl_of_find_none_true _ (hfind.trans hbq)]
      rfl

/-- Witness for C10 at a concrete builder and non-matching parameter. -/
theorem C10_when_frame_witness :
    ("apple" : String) ≠ "pear"
  ∧ (sampleNoDefault.when "pear" 3).evaluate_impl "apple" = sampleNoDefault.evaluate_impl "apple" := by
  refine ⟨by decide, ?_⟩
  exact (C10_when_frame sampleNoDefault "pear" 3).2.2 "apple" (by decide)

/-- Claim C8 model: a call to the `const` member `evaluate` returns the result
together with the receiver it leaves behind; the C++ method is `const` and
writes no member, so the receiver is returned unchanged. -/
def evaluateCall {Result : Type} {d : Bool} (s : StringSwitchImpl Result false d)
    (param : String) :
    EffectiveResultType Result d × StringSwitchImpl Result false d :=
  (s.evaluate param, s)

/-- Claim C8 model for the creation-bound overload `evaluate()`. -/
def evaluateBoundCall {Result : Type} {d : Bool}
    (s : StringSwitchImpl Result true d) :
    EffectiveResultType Result d × StringSwitchImpl Result true d :=
  (s.evaluateBound, s)

/-- Claim C8: evaluating the same builder twice with the same parameter gives
the same result both times, and evaluation leaves the mapping, parameter and
default of the builder unchanged (for both `evaluate` overloads). -/
theorem C8_evaluation_idempotent {Result : Type} {d : Bool}
    (b : StringSwitchImpl Result false d) (c : StringSwitchImpl Result true d)
    (param : String) :
    ((evaluateCall (evaluateCall b param).2 param).1 = (evaluateCall b param).1
      ∧ (evaluateCall (evaluateCall b param).2 param).2 = b
      ∧ (evaluateCall b param).2.d_mapping = b.d_mapping
      ∧ (evaluateCall b param).2.d_param = b.d_param
      ∧ (evaluateCall b param).2.d_default_outcome = b.d_default_outcome)
  ∧ ((evaluateBoundCall (evaluateBoundCall c).2).1 = (evaluateBoundCall c).1
      ∧ (evaluateBoundCall (evaluateBoundCall c).2).2 = c) :=
  ⟨⟨rfl, rfl, rfl, rfl, rfl⟩, rfl, rfl⟩

/-- Claim C3 is a code bug: `StringSwitchMid.on_default` builds the
accumulator from `{{}, {}, result}`, value-initializing the parameter slot
instead of passing `d_param` along, so the creation-bound parameter is lost.
`create "apple" |>.on_default 7 |>.when "apple" 0 |>.evaluate()` looks up `""`,
misses the registered `"apple"` case and returns the default `7`, even though
`"apple"` is in the mapping and the claim requires the lookup to use
`"apple"` and return `0`. -/
theorem C3_on_default_drops_param :
    ((StringSwitch.create Nat "apple").on_default 7).d_param = ""
  ∧ mapFind (((StringSwitch.create Nat "apple").on_default 7).when "apple" 0).d_mapping "apple" = some 0
  ∧ (((StringSwitch.create Nat "apple").on_default 7).when "apple" 0).evaluateBound = 7 :=
  ⟨rfl, by decide, by decide⟩

/-- Claim C4 is broken by the same slip: the identical chain
`on_default 7 |>.when "apple" 0` evaluated at `"apple"` returns `0` with
evaluation-time binding but `7` with creation-time binding, so the two binding
styles are not equivalent. -/
theorem C4_binding_styles_diverge :
    (((StringSwitch.create Nat "apple").on_default 7).when "apple" 0).evaluateBound = 7
  ∧ (((StringSwitch.createUnbound Nat).on_default 7).when "apple" 0).evaluate "apple" = 0 :=
  ⟨by decide, by decide⟩

/-! ## The default-uniqueness state machine (claim C6) -/

/-- A registration operation on the accumulator: a `when` case or an
`on_default`. -/
inductive Op (Result : Type) where
  | when (label : String) (result : Result)
  | on_default (result : Result)

/-- An accumulator state with its `DefaultBoundTag` erased to a runtime value:
the pair of the default-presence flag and the accumulator at that flag. -/
def AccState (Result : Type) (p : Bool) : Type :=
  Σ d : Bool, StringSwitchImpl Result p d

/-- Apply one operation to an accumulator state.  `none` models the C++
compile error: `on_default` carries `requires(!default_given)`, so no call on
a `DefaultBoundTag<true>` state exists. -/
def applyOp {Result : Type} {p : Bool} :
    AccState Result p → Op Result → Option (AccState Result p)
  | ⟨d, s⟩, Op.when l r => some ⟨d, s.when l r⟩
  | ⟨false, s⟩, Op.on_default r => some ⟨true, s.on_default r⟩
  | ⟨true, _⟩, Op.on_default _ => none

/-- Run a list of operations on an accumulator state. -/
def runOps {Result : Type} {p : Bool} :
    AccState Result p → List (Op Result) → Option (AccState Result p)
  | a, [] => some a
  | a, op :: ops =>
    match applyOp a op with
    | some a' => runOps a' ops
    | none => none

/-- The first registration: `StringSwitchMid.when` or
`StringSwitchMid.on_default` moves the intermediate state into the
accumulator. -/
def startOp {Result : Type} {p : Bool} (m : StringSwitchMid Result p) :
    Op Result → AccState Result p
  | Op.when l r => ⟨false, m.when l r⟩
  | Op.on_default r => ⟨true, m.on_default r⟩

/-- The number of `on_default` operations in a list. -/
def countDefaults {Result : Type} : List (Op Result) → Nat
  | [] => 0
  | Op.on_default _ :: ops => countDefaults ops + 1
  | Op.when _ _ :: ops => countDefaults ops

theorem runOps_defaults_le {Result : Type} {p : Bool} :
    ∀ (ops : List (Op Result)) (d : Bool) (s : StringSwitchImpl Result p d)
      (a : AccState Result p),
      runOps ⟨d, s⟩ ops = some a →
      countDefaults ops + (if d then 1 else 0) ≤ 1
  | [], d, s, a, _ => by cases d <;> simp [countDefaults]
  | Op.when l r :: ops, d, s, a, h => by
    simp only [runOps, applyOp] at h
    simpa [countDefaults] using runOps_defaults_le ops d (s.when l r) a h
  | Op.on_default r :: ops, false, s, a, h => by
    simp only [runOps, applyOp] at h
    have hle := runOps_defaults_le ops true (s.on_default r) a h
    simp [countDefaults] at hle ⊢
    omega
  | Op.on_default r :: ops, true, s, a, h => by
    simp [runOps, applyOp] at h

/-- Claim C6: at most one default is ever registered: applying `on_default` to
a state whose default-presence flag is already `true` is statically impossible
(`none` in the flag-erased model), and every operation sequence that runs
successfully from the intermediate state contains at most one `on_default`. -/
theorem C6_at_most_one_default {Result : Type} {p : Bool}
    (m : StringSwitchMid Result p) (op : Op Result) (ops : List (Op Result))
    (a : AccState Result p) (h : runOps (startOp m op) ops = some a) :
    countDefaults (op :: ops) ≤ 1
  ∧ ∀ (s : StringSwitchImpl Result p true) (r : Result),
      applyOp ⟨true, s⟩ (Op.on_default r) = none := by
  refine ⟨?_, fun s r => rfl⟩
  cases op with
  | when l r =>
    have hle := runOps_defaults_le ops false (m.when l r) a h
    simpa [countDefaults] using hle
  | on_default r =>
    have hle := runOps_defaults_le ops true (m.on_default r) a h
    simp [countDefaults] at hle ⊢
    omega

/-- Witness for C6 at a concrete operation sequence. -/
theorem C6_at_most_one_default_witness :
    runOps (startOp (StringSwitch.createUnbound Nat) (Op.when "apple" 0))
      [Op.when "mango" 1, Op.on_default 7] = some ⟨true, sampleWithDefault⟩
  ∧ countDefaults [Op.when "apple" 0, Op.when "mango" 1, Op.on_default 7] ≤ 1 := by
  refine ⟨rfl, ?_⟩
  exact (C6_at_most_one_default (StringSwitch.createUnbound Nat) (Op.when "apple" 0)
    [Op.when "mango" 1, Op.on_default 7] ⟨true, sampleWithDefault⟩ rfl).1

/-! ## Order-irrelevance of case registration (claim C7) -/

/-- Registering a list of cases by chained accumulator `when` calls. -/
def foldWhen {Result : Type} {p d : Bool} (b : StringSwitchImpl Result p d)
    (cs : List (String × Result)) : StringSwitchImpl Result p d :=
  cs.foldl (fun acc lr => acc.when lr.1 lr.2) b

theorem mapFind_emplace_eq {Result : Type} (m : List (String × Result))
    (l : String) (r : Result) (x : String) :
    mapFind (emplace m l r) x =
      match mapFind m x with
      | some v => some v
      | none => mapFind [(l, r)] x := by
  cases hmx : mapFind m x with
  | some v =>
    cases hml : mapFind m l with
    | some w =>
      rw [emplace_of_find_some r hml]
      exact hmx
    | none =>
      rw [emplace_of_find_none r hml]
      exact mapFind_append_of_some _ hmx
  | none =>
    cases hml : mapFind m l with
    | some w =>
      have hlx : l ≠ x := by
        intro heq
        subst heq
        rw [hml] at hmx
        cases hmx
      rw [emplace_of_find_some r hml, hmx]
      simp [mapFind, hlx]
    | none =>
      rw [emplace_of_find_none r hml]
      exact mapFind_append_of_none _ hmx

theorem mapFind_foldWhen {Result : Type} {p d : Bool} :
    ∀ (cs : List (String × Result)) (b : StringSwitchImpl Result p d) (x : String),
      mapFind (foldWhen b cs).d_mapping x =
        match mapFind b.d_mapping x with
        | some v => some v
        | none => mapFind cs x
  | [], b, x => by cases hbx : mapFind b.d_mapping x <;> simp [foldWhen, mapFind, hbx]
  | (l, r) :: cs, b, x => by
    have hstep : foldWhen b ((l, r) :: cs) = foldWhen (b.when l r) cs := rfl
    rw [hstep, mapFind_foldWhen cs (b.when l r) x]
    have hwhen : mapFind (b.when l r).d_mapping x =
        match mapFind b.d_mapping x with
        | some v => some v
        | none => mapFind [(l, r)] x := mapFind_emplace_eq b.d_mapping l r x
    rw [hwhen]
    cases hbx : mapFind b.d_mapping x with
    | some v => rfl
    | none =>
      by_cases hlx : l = x
      · simp [mapFind, hlx]
      · simp [mapFind, hlx]

theorem foldWhen_default {Result : Type} {p d : Bool} :
    ∀ (cs : List (String × Result)) (b : StringSwitchImpl Result p d),
      (foldWhen b cs).d_default_outcome = b.d_default_outcome
  | [], _ => rfl
  | (l, r) :: cs, b => foldWhen_default cs (b.when l r)

theorem mapFind_perm {Result : Type} {cs₁ cs₂ : List (String × Result)}
    (hperm : cs₁.Perm cs₂) :
    NodupKeys cs₁ → ∀ x, mapFind cs₁ x = mapFind cs₂ x := by
  induction hperm with
  | nil => exact fun _ _ => rfl
  | cons a h ih =>
    intro hnd x
    obtain ⟨k, v⟩ := a
    simp only [mapFind]
    by_cases hk : k = x
    · simp [hk]
    · simp only [if_neg hk]
      simp only [NodupKeys, List.map_cons, List.nodup_cons] at hnd
      exact ih hnd.2 x
  | swap a b l =>
    intro hnd x
    obtain ⟨k₁, v₁⟩ := a
    obtain ⟨k₂, v₂⟩ := b
    simp only [NodupKeys, List.map_cons, List.nodup_cons, List.mem_cons] at hnd
    have hne : ¬k₂ = k₁ := fun heq => hnd.1 (Or.inl heq)
    simp only [mapFind]
    by_cases h₂ : k₂ = x
    · have h₁ : ¬k₁ = x := fun heq => hne (h₂.trans heq.symm)
      simp [h₂, h₁]
    · simp [h₂]
  | trans h₁ h₂ ih₁ ih₂ =>
    intro hnd x
    have hnd₂ : NodupKeys _ := (h₁.map Prod.fst).nodup hnd
    rw [ih₁ hnd x, ih₂ hnd₂ x]

/-- Claim C7: when the registered labels are pairwise distinct, the order of
the `when` registrations does not affect evaluation: chaining them in any
permuted order gives the same result for every evaluation parameter. -/
theorem C7_order_irrelevant {Result : Type} {p d : Bool}
    (b : StringSwitchImpl Result p d) (cs₁ cs₂ : List (String × Result))
    (param : String) (hperm : cs₁.Perm cs₂) (hnd : NodupKeys cs₁) :
    (foldWhen b cs₁).evaluate_impl param = (foldWhen b cs₂).evaluate_impl param := by
  have hfind : mapFind (foldWhen b cs₁).d_mapping param
      = mapFind (foldWhen b cs₂).d_mapping param := by
    rw [mapFind_foldWhen cs₁ b param, mapFind_foldWhen cs₂ b param]
    cases hbx : mapFind b.d_mapping param with
    | some v => rfl
    | none => simpa using mapFind_perm hperm hnd param
  have hdef : (foldWhen b cs₁).d_default_outcome = (foldWhen b cs₂).d_default_outcome := by
    rw [foldWhen_default cs₁ b, foldWhen_default cs₂ b]
  simp only [StringSwitchImpl.evaluate_impl]
  cases d with
  | false =>
    simp only [evalImplCore]
    exact hfind
  | true =>
    simp only [evalImplCore]
    rw [hfind, hdef]

/-- Witness for C7 at a concrete pair of permuted case lists. -/
theorem C7_order_irrelevant_witness :
    ([("apple", 0), ("mango", 1)] : List (String × Nat)).Perm [("mango", 1), ("apple", 0)]
  ∧ NodupKeys ([("apple", 0), ("mango", 1)] : List (String × Nat))
  ∧ (foldWhen ((StringSwitch.createUnbound Nat).when "pear" 3) [("apple", 0), ("mango", 1)]).evaluate_impl "mango"
      = (foldWhen ((StringSwitch.createUnbound Nat).when "pear" 3) [("mango", 1), ("apple", 0)]).evaluate_impl "mango" := by
  refine ⟨by decide, by decide, ?_⟩
  exact C7_order_irrelevant ((StringSwitch.createUnbound Nat).when "pear" 3)
    [("apple", 0), ("mango", 1)] [("mango", 1), ("apple", 0)] "mango" (by decide) (by decide)
